import Mathlib

/-!
Shallow embedding of the resource lifecycle engine of the
`terraform-provider-genesyscloud` repository: queue membership
reconciliation, retry-driven read/delete/update lifecycles, and the
paginated exporters, translated from
`genesyscloud/resource_genesyscloud_routing_queue.go`,
`genesyscloud/resource_genesyscloud_journey_action_map.go` and the
journey segment resource file.

Diagnostics (`diag.Diagnostics`) are modelled as `Option String`
(`none` = nil = success, `some msg` = an error diagnostic carrying the
formatted message).  Remote calls are modelled by explicit behaviour
records, and every operation additionally returns the ordered trace of
remote calls it issued.
-/

namespace Genesys

/-- Diagnostics: `none` is a nil `diag.Diagnostics` (success). -/
abbrev Diag := Option String

/-- One member of a routing queue as returned by the members listing
(`platformclientv2.Queuemember`, fields `Id` and `RingNumber`), and also
one entry of the `members` set in the Terraform configuration
(`user_id`, `ring_num`). -/
structure Queuemember where
  id : String
  ringNumber : Int
deriving Repr, DecidableEq

/-- Remote calls issued by the queue membership reconciliation code. -/
inductive QueueCall where
  /-- the paginated `GetRoutingQueueMembers` listing performed by
  `getRoutingQueueMembers` -/
  | listMembers : QueueCall
  /-- one `PostRoutingQueueMembers(queueID, updateChunk, remove)` batch
  call; `ids` is the list of member ids the serialized body carries -/
  | postMembers (ids : List String) (remove : Bool) : QueueCall
  /-- one `PatchRoutingQueueMember(queueID, userID, ringNum)` call -/
  | patchRingNum (userID : String) (ringNum : Int) : QueueCall
deriving Repr, DecidableEq

/-- Behaviour of the remote routing API as seen by `updateQueueMembers`:
the outcome of the member listing, of each batch membership call and of
each ring-number patch. -/
structure RoutingApiBehavior where
  getMembers : Except String (List Queuemember)
  postMembersErr : List String → Bool → Option String
  patchRingNumErr : String → Int → Option String

/-- Go map assignment `m[k] = v` on an association list: overwrite the
existing entry for `k`, or append a fresh one. -/
def mapInsert {β : Type} (m : List (String × β)) (k : String) (v : β) :
    List (String × β) :=
  if m.any (fun p => p.1 = k) then
    m.map (fun p => if p.1 = k then (k, v) else p)
  else
    m ++ [(k, v)]

/-- Go map lookup `m[k]` (with the `, found` form). -/
def mapLookup {β : Type} (m : List (String × β)) (k : String) : Option β :=
  match m.find? (fun p => p.1 = k) with
  | some p => some p.2
  | none => none

/-- Modelled from the spec: `sliceDifference` is defined outside the
provided source files; the spec describes membership reconciliation as
computing the "set difference between the Desired and Observed
membership lists", so it returns the elements of `a` that do not occur
in `b`, in their order in `a`. -/
def sliceDifference (a b : List String) : List String :=
  a.filter (fun x => ¬ b.contains x)

/-- Structural worker for `chunks100`; the fuel is an upper bound on the
number of slices and is passed the list's length, which suffices because
every non-empty step drops at least one element. -/
def chunks100Go : Nat → List String → List (List String)
  | 0, _ => []
  | _, [] => []
  | fuel + 1, x :: xs => ((x :: xs).take 100) :: chunks100Go fuel ((x :: xs).drop 100)

/-- The consecutive slices `membersToUpdate[i:end]` taken by the
`for i := 0; i < len(membersToUpdate); i += maxBatchSize` loop of
`updateMembersInChunks`, with `maxBatchSize = 100`. -/
def chunks100 (l : List String) : List (List String) :=
  chunks100Go l.length l

/-- The member ids actually carried by the serialized body of one batch
call.  The source builds the chunk with
`for _, id := range membersToUpdate[i:end] { updateChunk = append(updateChunk, Writableentity{Id: &id}) }`:
under the Go (pre-1.22) semantics in force for this repository, `id` is
a single variable reused by every iteration, so each appended
`Writableentity.Id` points to the same storage, which at call time holds
the final element of the slice.  The serialized body therefore repeats
the chunk's last id once per entity. -/
def updateChunkIds (chunk : List String) : List String :=
  match chunk.getLast? with
  | none => []
  | some last => chunk.map (fun _ => last)

/-- The member ids the `for` loop of `updateMembersInChunks` was
iterating over, i.e. the chunk contents a per-iteration loop variable
would have produced.  Used to compare the issued bodies with the
requested ones. -/
def updateChunkIdsRequested (chunk : List String) : List String := chunk

/-- `updateMembersInChunks(queueID, membersToUpdate, remove, api)` from
`resource_genesyscloud_routing_queue.go`.  For each 100-slice it builds
`updateChunk` (see `updateChunkIds`) and, when the chunk is non-empty,
issues `PostRoutingQueueMembers`.  The call's error is ignored by the
source (the `err` binding and the `if err != nil` return are commented
out with a TODO about an SDK deserialization bug), so the function
always returns nil diagnostics, whatever `api.postMembersErr` says. -/
def updateMembersInChunks (queueID : String) (membersToUpdate : List String)
    (remove : Bool) (api : RoutingApiBehavior) : Diag × List QueueCall :=
  let _ := queueID
  let _ := api
  (none,
    (chunks100 membersToUpdate).filterMap (fun c =>
      if (updateChunkIds c).length > 0 then
        some (QueueCall.postMembers (updateChunkIds c) remove)
      else
        none))

/-- `updateQueueUserRingNum(queueID, userID, ringNum, api)`:
one `PatchRoutingQueueMember` call; its error, if any, is returned as a
diagnostic naming the queue and the user. -/
def updateQueueUserRingNum (queueID userID : String) (ringNum : Int)
    (api : RoutingApiBehavior) : Diag × List QueueCall :=
  match api.patchRingNumErr userID ringNum with
  | some e =>
      (some ("Failed to update ring number for queue " ++ queueID ++
        " user " ++ userID ++ ": " ++ e),
       [QueueCall.patchRingNum userID ringNum])
  | none => (none, [QueueCall.patchRingNum userID ringNum])

/-- The `for userID, newNum := range newUserRingNums` fixup loop at the
end of `updateQueueMembers`: patch the ring number when the member
already existed with a different number, or is newly added with a
non-default (≠ 1) number; stop at the first patch error.  Go iterates a
map in unspecified order; the model iterates the association list in
insertion order (no claim depends on the order among fixups). -/
def ringNumFixups (queueID : String) (oldMap : List (String × Int))
    (api : RoutingApiBehavior) :
    List (String × Int) → Diag × List QueueCall
  | [] => (none, [])
  | (userID, newNum) :: rest =>
    let doUpdate : Bool :=
      match mapLookup oldMap userID with
      | some oldNum => newNum != oldNum
      | none => newNum != 1
    if doUpdate then
      let r := updateQueueUserRingNum queueID userID newNum api
      match r.1 with
      | some e => (some e, r.2)
      | none =>
        let rec' := ringNumFixups queueID oldMap api rest
        (rec'.1, r.2 ++ rec'.2)
    else
      ringNumFixups queueID oldMap api rest

/-- `updateQueueMembers(d)` from `resource_genesyscloud_routing_queue.go`.
`cfgMembers = none` models `d.GetOk("members")` reporting the attribute
as not set in the configuration (the source then returns nil without
touching the API); `some memberList` is the configured member set in
its list order.  Otherwise: list the current members, remove
`sliceDifference old new` in chunks, add `sliceDifference new old` in
chunks, then fix up ring numbers. -/
def updateQueueMembers (queueID : String)
    (cfgMembers : Option (List Queuemember)) (api : RoutingApiBehavior) :
    Diag × List QueueCall :=
  match cfgMembers with
  | none =>
    -- Members not set in the config. Do not update.
    (none, [])
  | some memberList =>
    let newUserIds := memberList.map (·.id)
    let newUserRingNums :=
      memberList.foldl (fun m mem => mapInsert m mem.id mem.ringNumber) []
    match api.getMembers with
    | .error e =>
        (some ("Failed to query users for queue " ++ queueID ++ ": " ++ e),
         [QueueCall.listMembers])
    | .ok oldSdkUsers =>
      let oldUserIds := oldSdkUsers.map (·.id)
      let oldUserRingNums :=
        oldSdkUsers.foldl (fun m u => mapInsert m u.id u.ringNumber) []
      let remStep :=
        if oldUserIds.length > 0 then
          updateMembersInChunks queueID (sliceDifference oldUserIds newUserIds)
            true api
        else (none, [])
      match remStep.1 with
      | some e => (some e, QueueCall.listMembers :: remStep.2)
      | none =>
        let addStep :=
          if newUserIds.length > 0 then
            updateMembersInChunks queueID
              (sliceDifference newUserIds oldUserIds) false api
          else (none, [])
        match addStep.1 with
        | some e => (some e, QueueCall.listMembers :: remStep.2 ++ addStep.2)
        | none =>
          let fixups := ringNumFixups queueID oldUserRingNums api newUserRingNums
          (fixups.1, QueueCall.listMembers :: remStep.2 ++ addStep.2 ++ fixups.2)

/-- All member ids occurring in removal batch calls of a trace. -/
def removalIds (calls : List QueueCall) : List String :=
  calls.foldr (fun c acc =>
    match c with
    | QueueCall.postMembers ids true => ids ++ acc
    | _ => acc) []

/-- All member ids occurring in addition batch calls of a trace. -/
def additionIds (calls : List QueueCall) : List String :=
  calls.foldr (fun c acc =>
    match c with
    | QueueCall.postMembers ids false => ids ++ acc
    | _ => acc) []

/-! ## Retry engine

`withRetries`, `withRetriesForRead` and `retryWhen` are helpers of this
repository that the provided source files only call; they are modelled
from the spec's Retry Engine contract (§4.1). -/

/-- The two dispositions a `resource.RetryError` can have. -/
inductive RetryError where
  | retryable (msg : String)
  | nonRetryable (msg : String)
deriving Repr, DecidableEq

/-- The result of a remote get: the typed payload, or a transport error
together with the HTTP status of the response when one exists (`none`
models a nil `*APIResponse`). -/
inductive GetResult (α : Type) where
  | ok (payload : α)
  | err (status : Option Nat) (msg : String)
deriving Repr, DecidableEq

/-- Modelled from the spec: `isStatus404` is defined outside the
provided source files; per §6, the transport metadata "exposes at least
an HTTP-style status code used for the 404-classification rules", so
the predicate holds exactly when a response exists and its status code
is 404. -/
def isStatus404 (status : Option Nat) : Bool :=
  status == some 404

/-- Modelled from the spec: the loop of `withRetries` (§4.1).  The
operation, indexed by the attempt tick, is re-invoked on
`RetryableFailure` once per polling tick; `fuel` is the number of ticks
remaining until the deadline.  On success it returns `none`; a
non-retryable failure surfaces immediately; when the deadline elapses
with the last failure still retryable, that failure is returned as the
terminal error. -/
def withRetriesAux (op : Nat → Option RetryError) : Nat → Nat → Option String
  | 0, t =>
    match op t with
    | none => none
    | some (RetryError.nonRetryable m) => some m
    | some (RetryError.retryable m) => some m
  | fuel + 1, t =>
    match op t with
    | none => none
    | some (RetryError.nonRetryable m) => some m
    | some (RetryError.retryable _) => withRetriesAux op fuel (t + 1)

/-- Modelled from the spec: `withRetries(ctx, deadline, op)` (§4.1),
with one attempt per polling tick, attempts happening at ticks
`0, 1, …, deadline`. -/
def withRetries (deadline : Nat) (op : Nat → Option RetryError) :
    Option String :=
  withRetriesAux op deadline 0

/-- Modelled from the spec: the state-threading variant of the retry
loop used by `withRetriesForRead` — each attempt may update the local
Terraform state (the `d.Set` calls of the flatten step persist across
attempts). -/
def withRetriesForReadAux {σ : Type} (op : Nat → σ → σ × Option RetryError) :
    Nat → Nat → σ → σ × Option String
  | 0, t, s =>
    let r := op t s
    match r.2 with
    | none => (r.1, none)
    | some (RetryError.nonRetryable m) => (r.1, some m)
    | some (RetryError.retryable m) => (r.1, some m)
  | fuel + 1, t, s =>
    let r := op t s
    match r.2 with
    | none => (r.1, none)
    | some (RetryError.nonRetryable m) => (r.1, some m)
    | some (RetryError.retryable _) => withRetriesForReadAux op fuel (t + 1) r.1

/-- Modelled from the spec: `withRetriesForRead(ctx, d, op)` — the
read-after-create visibility retry loop (§4.1), deadline in ticks. -/
def withRetriesForRead {σ : Type} (deadline : Nat)
    (op : Nat → σ → σ × Option RetryError) (s : σ) : σ × Option String :=
  withRetriesForReadAux op deadline 0 s

/-! ## Journey segment: read, delete, update -/

/-- The fields of `platformclientv2.Journeysegment` the lifecycle logic
inspects: the soft-deletion flag, the display name and the
optimistic-concurrency version. -/
structure Journeysegment where
  isActive : Option Bool
  displayName : String
  version : Int
deriving Repr, DecidableEq

/-- The slice of local Terraform state for a journey segment that the
modelled claims observe: the identifier (`""` after `d.SetId("")`) and
the flattened display name. -/
structure SegmentState where
  id : String
  displayName : Option String
deriving Repr, DecidableEq

/-- One attempt of the retry closure in `readJourneySegment`
(journey segment source file): a 404 on the get is classified
retryable, any other get error non-retryable; a payload with
`IsActive == false` clears the local identifier and returns success
without running the consistency check; otherwise the payload is
flattened into state and the consistency checker's verdict
(`cc.CheckState()`, modelled by the parameter `ccVerdict` since the
consistency checker is outside the provided source) is returned. -/
def readJourneySegmentStep (d : SegmentState) (res : GetResult Journeysegment)
    (ccVerdict : Option RetryError) : SegmentState × Option RetryError :=
  match res with
  | GetResult.err status msg =>
    if isStatus404 status then
      (d, some (RetryError.retryable
        ("failed to read journey segment " ++ d.id ++ ": " ++ msg)))
    else
      (d, some (RetryError.nonRetryable
        ("failed to read journey segment " ++ d.id ++ ": " ++ msg)))
  | GetResult.ok seg =>
    match seg.isActive with
    | some false => ({ d with id := "" }, none)
    | _ => ({ d with displayName := some seg.displayName }, ccVerdict)

/-- `readJourneySegment(ctx, d, meta)`: the step above wrapped in
`withRetriesForRead`, the per-attempt get results given by `api`. -/
def readJourneySegment (deadline : Nat) (d : SegmentState)
    (api : Nat → GetResult Journeysegment) (ccVerdict : Option RetryError) :
    SegmentState × Option String :=
  withRetriesForRead deadline
    (fun t s => readJourneySegmentStep s (api t) ccVerdict) d

/-- One poll attempt of the delete-confirmation loop in
`deleteJourneySegment`: 404 means the segment is gone (success), any
other get error is non-retryable, a payload with `IsActive == false`
counts as deleted (success), and an active payload means the segment
still exists (retryable). -/
def deleteJourneySegmentStep (id : String) (res : GetResult Journeysegment) :
    Option RetryError :=
  match res with
  | GetResult.err status msg =>
    if isStatus404 status then none
    else some (RetryError.nonRetryable
      ("error deleting journey segment " ++ id ++ ": " ++ msg))
  | GetResult.ok seg =>
    match seg.isActive with
    | some false => none
    | _ => some (RetryError.retryable
        ("journey segment " ++ id ++ " still exists"))

/-- `deleteJourneySegment(ctx, d, meta)`: issue the delete (whose error,
if any, is surfaced immediately), then poll the get in `withRetries`
with the source's literal 30-second deadline (one tick per second). -/
def deleteJourneySegment (id displayName : String) (delErr : Option String)
    (api : Nat → GetResult Journeysegment) : Option String :=
  match delErr with
  | some e =>
    some ("Failed to delete journey segment with display name " ++
      displayName ++ ": " ++ e)
  | none => withRetries 30 (fun t => deleteJourneySegmentStep id (api t))

/-- Calls issued by `updateJourneySegment`. -/
inductive SegmentUpdateCall where
  | patchSegment (version : Int) : SegmentUpdateCall
deriving Repr, DecidableEq

/-- `updateJourneySegment(ctx, d, meta)`: `buildSdkPatchSegment` takes
the version from the local state (`d.Get("version")`), and the patch is
applied exactly once — there is no preliminary get of the current remote
version and no retry of any kind; a patch error (version conflicts
included) is surfaced directly.  On success the source proceeds to
`readJourneySegment`, modelled separately. -/
def updateJourneySegment (displayName : String) (stateVersion : Int)
    (patchErr : Option String) : Option String × List SegmentUpdateCall :=
  match patchErr with
  | some e =>
    (some ("Error updating journey segment " ++ displayName ++ ": " ++ e),
     [SegmentUpdateCall.patchSegment stateVersion])
  | none => (none, [SegmentUpdateCall.patchSegment stateVersion])

/-! ## Routing queue: read and delete -/

/-- The slice of a `platformclientv2.Queue` payload the modelled claims
observe (`readQueue` flattens many more attributes mechanically). -/
structure Queue where
  name : String
deriving Repr, DecidableEq

/-- The observed slice of local Terraform state for a queue. -/
structure QueueState where
  id : String
  name : Option String
deriving Repr, DecidableEq

/-- `readQueue(ctx, d, meta)` from
`resource_genesyscloud_routing_queue.go` (lines 360–366): a single
`GetRoutingQueue` call with no retry wrapper and no status inspection —
every get error, a 404 included, is surfaced immediately as an error
diagnostic; on success the payload is flattened into state. -/
def readQueue (d : QueueState) (res : GetResult Queue) :
    QueueState × Option String :=
  match res with
  | GetResult.err _ msg =>
    (d, some ("Failed to read user " ++ d.id ++ ": " ++ msg))
  | GetResult.ok q => ({ d with name := some q.name }, none)

/-- One poll attempt of the delete-confirmation loop in `deleteQueue`:
a get error with a 404 response means the queue is deleted (success),
any other get error is non-retryable, and a successful get means the
queue still exists (retryable). -/
def deleteQueueStep (id : String) (res : GetResult Queue) :
    Option RetryError :=
  match res with
  | GetResult.err status msg =>
    if status == some 404 then none
    else some (RetryError.nonRetryable
      ("Error deleting queue " ++ id ++ ": " ++ msg))
  | GetResult.ok _ =>
    some (RetryError.retryable ("Queue " ++ id ++ " still exists"))

/-- `deleteQueue(ctx, d, meta)`: issue `DeleteRoutingQueue` (whose
error, if any, is surfaced immediately), then poll the get in
`resource.RetryContext` with the resource's delete timeout
(`d.Timeout(schema.TimeoutDelete)`, the `deadline` parameter). -/
def deleteQueue (id name : String) (delErr : Option String) (deadline : Nat)
    (api : Nat → GetResult Queue) : Option String :=
  match delErr with
  | some e => some ("Failed to delete queue " ++ name ++ ": " ++ e)
  | none => withRetries deadline (fun t => deleteQueueStep id (api t))

/-! ## Journey action map: read, delete, update -/

/-- The fields of `platformclientv2.Actionmap` the lifecycle logic
inspects. -/
structure Actionmap where
  isActive : Bool
  displayName : String
  version : Int
deriving Repr, DecidableEq

/-- The observed slice of local Terraform state for an action map: the
identifier and the flattened `is_active` and `display_name`
attributes. -/
structure ActionMapState where
  id : String
  isActiveAttr : Option Bool
  displayName : Option String
deriving Repr, DecidableEq

/-- One attempt of the retry closure in `readJourneyActionMap`: a 404 on
the get is retryable, any other get error non-retryable; on success the
payload is always flattened into state (`flattenActionMap` sets
`is_active` like any other attribute and never touches the identifier —
there is no semantically-deleted branch) and the consistency checker's
verdict is returned. -/
def readJourneyActionMapStep (d : ActionMapState) (res : GetResult Actionmap)
    (ccVerdict : Option RetryError) : ActionMapState × Option RetryError :=
  match res with
  | GetResult.err status msg =>
    if isStatus404 status then
      (d, some (RetryError.retryable
        ("failed to read journey action map " ++ d.id ++ ": " ++ msg)))
    else
      (d, some (RetryError.nonRetryable
        ("failed to read journey action map " ++ d.id ++ ": " ++ msg)))
  | GetResult.ok am =>
    ({ d with isActiveAttr := some am.isActive,
              displayName := some am.displayName }, ccVerdict)

/-- `readJourneyActionMap(ctx, d, meta)`: the step above wrapped in
`withRetriesForRead`. -/
def readJourneyActionMap (deadline : Nat) (d : ActionMapState)
    (api : Nat → GetResult Actionmap) (ccVerdict : Option RetryError) :
    ActionMapState × Option String :=
  withRetriesForRead deadline
    (fun t s => readJourneyActionMapStep s (api t) ccVerdict) d

/-- One poll attempt of the delete-confirmation loop in
`deleteJourneyActionMap`: 404 means deleted (success), any other get
error is non-retryable, and a successful get means the action map still
exists (retryable) — there is no inactive branch here. -/
def deleteJourneyActionMapStep (id : String) (res : GetResult Actionmap) :
    Option RetryError :=
  match res with
  | GetResult.err status msg =>
    if isStatus404 status then none
    else some (RetryError.nonRetryable
      ("error deleting journey action map " ++ id ++ ": " ++ msg))
  | GetResult.ok _ =>
    some (RetryError.retryable ("journey action map " ++ id ++ " still exists"))

/-- `deleteJourneyActionMap(ctx, d, meta)`: issue the delete, then poll
the get in `withRetries` with the source's literal 30-second
deadline. -/
def deleteJourneyActionMap (id displayName : String) (delErr : Option String)
    (api : Nat → GetResult Actionmap) : Option String :=
  match delErr with
  | some e =>
    some ("Failed to delete journey action map with display name " ++
      displayName ++ ": " ++ e)
  | none => withRetries 30 (fun t => deleteJourneyActionMapStep id (api t))

/-- Calls issued by `updateJourneyActionMap`. -/
inductive AmCall where
  | getActionMap : AmCall
  | patchActionMap (version : Int) : AmCall
deriving Repr, DecidableEq

/-- Errors of the patch call, distinguishing the optimistic-concurrency
version conflict from every other failure. -/
inductive AmErr where
  | versionMismatch (msg : String) : AmErr
  | other (msg : String) : AmErr
deriving Repr, DecidableEq

/-- The message carried by an `AmErr`. -/
def amErrMsg : AmErr → String
  | AmErr.versionMismatch m => m
  | AmErr.other m => m

/-- Modelled from the spec: `isVersionMismatch` is defined outside the
provided source files; per §4.1/§7 it recognizes exactly the
optimistic-concurrency version-conflict errors. -/
def isVersionMismatch : AmErr → Bool
  | AmErr.versionMismatch _ => true
  | AmErr.other _ => false

/-- Behaviour of the journey API during `updateJourneyActionMap`: the
result of the n-th `GetJourneyActionmap` and of the n-th
`PatchJourneyActionmap` given the version stamp it carries. -/
structure AmUpdateApi where
  get : Nat → GetResult Actionmap
  patch : Nat → Int → Option AmErr

/-- One invocation of the closure passed to `retryWhen` in
`updateJourneyActionMap` (attempt `n`): get the current action map (a
get error surfaces, keyed by the resource id), stamp the patch with
exactly the version just read, and apply the patch. -/
def updateJourneyActionMapAttempt (id : String) (api : AmUpdateApi) (n : Nat) :
    Option AmErr × List AmCall :=
  match api.get n with
  | GetResult.err _ msg =>
    (some (AmErr.other
      ("Failed to read current journey action map " ++ id ++ ": " ++ msg)),
     [AmCall.getActionMap])
  | GetResult.ok am =>
    match api.patch n am.version with
    | some e =>
      (some e, [AmCall.getActionMap, AmCall.patchActionMap am.version])
    | none => (none, [AmCall.getActionMap, AmCall.patchActionMap am.version])

/-- Modelled from the spec: the loop of `retryWhen(isVersionMismatch, op)`
— defined outside the provided source files; per §4.1/§7, version
conflicts are retryable ("re-fetch latest version and retry the mutation
with the refreshed version stamp"), bounded by the retry engine
(`maxAttempts` further attempts), while every other failure surfaces
immediately. -/
def retryWhenAux (op : Nat → Option AmErr × List AmCall) :
    Nat → Nat → Option String × List AmCall
  | 0, n =>
    let r := op n
    (r.1.map amErrMsg, r.2)
  | fuel + 1, n =>
    let r := op n
    match r.1 with
    | none => (none, r.2)
    | some e =>
      if isVersionMismatch e then
        let rest := retryWhenAux op fuel (n + 1)
        (rest.1, r.2 ++ rest.2)
      else (some (amErrMsg e), r.2)

/-- Modelled from the spec: `retryWhen` with a bound of `maxRetries`
re-attempts after the first one. -/
def retryWhen (maxRetries : Nat) (op : Nat → Option AmErr × List AmCall) :
    Option String × List AmCall :=
  retryWhenAux op maxRetries 0

/-- `updateJourneyActionMap(ctx, d, meta)`: the read-version/stamp/patch
closure retried on version mismatch via `retryWhen`.  On success the
source proceeds to `readJourneyActionMap`, modelled separately. -/
def updateJourneyActionMap (id : String) (maxRetries : Nat)
    (api : AmUpdateApi) : Option String × List AmCall :=
  retryWhen maxRetries (updateJourneyActionMapAttempt id api)

/-! ## Exporter/Lister pagination -/

/-- One page of an entity listing response: `entities` is the `Entities`
slice (`none` models a nil slice), each entity contributing its id and
display name; `pageCount` is the `PageCount` the backend reports. -/
structure EntityPage where
  entities : Option (List (String × String))
  pageCount : Nat
deriving Repr, DecidableEq

/-- Outcome of a listing pass.  `hang` marks that the modelling fuel ran
out with the Go loop still running (the loops have no internal bound, so
a backend that never returns an empty page keeps them going). -/
inductive ListOutcome where
  | ok (resources : List (String × String)) : ListOutcome
  | err (msg : String) : ListOutcome
  | hang : ListOutcome
deriving Repr, DecidableEq

/-- The page loop of `getAllJourneySegments` (journey segment source
file): request pages `1, 2, 3, …` until one returns a nil or empty
`Entities` slice (then return the accumulated map) or a get error
(surfaced); the reported `PageCount` is never consulted.  Returns the
outcome and the list of page numbers requested. -/
def getAllJourneySegmentsAux (pages : Nat → Except String EntityPage) :
    Nat → Nat → List (String × String) → ListOutcome × List Nat
  | 0, _, _ => (ListOutcome.hang, [])
  | fuel + 1, pageNum, acc =>
    match pages pageNum with
    | Except.error e =>
      (ListOutcome.err ("Failed to get page of journey segments: " ++ e),
       [pageNum])
    | Except.ok pg =>
      match pg.entities with
      | none => (ListOutcome.ok acc, [pageNum])
      | some [] => (ListOutcome.ok acc, [pageNum])
      | some es =>
        let acc2 := es.foldl (fun m e => mapInsert m e.1 e.2) acc
        let r := getAllJourneySegmentsAux pages fuel (pageNum + 1) acc2
        (r.1, pageNum :: r.2)

/-- `getAllJourneySegments(ctx, clientConfig)`, starting at page 1 with
an empty `ResourceIDMetaMap`. -/
def getAllJourneySegments (fuel : Nat)
    (pages : Nat → Except String EntityPage) : ListOutcome × List Nat :=
  getAllJourneySegmentsAux pages fuel 1 []

/-- The page loop of `getAllJourneyActionMaps`
(`resource_genesyscloud_journey_action_map.go`): `pageCount` starts at 1
("Needed because of broken journey common paging") and is refreshed from
each successful non-empty page; the loop requests `pageNum` only while
`pageNum <= pageCount`, and also stops at a nil/empty `Entities` slice
or a get error. -/
def getAllJourneyActionMapsAux (pages : Nat → Except String EntityPage) :
    Nat → Nat → Nat → List (String × String) → ListOutcome × List Nat
  | 0, _, _, _ => (ListOutcome.hang, [])
  | fuel + 1, pageNum, pageCount, acc =>
    if pageNum > pageCount then (ListOutcome.ok acc, [])
    else
      match pages pageNum with
      | Except.error e =>
        (ListOutcome.err ("Failed to get page of journey action maps: " ++ e),
         [pageNum])
      | Except.ok pg =>
        match pg.entities with
        | none => (ListOutcome.ok acc, [pageNum])
        | some [] => (ListOutcome.ok acc, [pageNum])
        | some es =>
          let acc2 := es.foldl (fun m e => mapInsert m e.1 e.2) acc
          let r :=
            getAllJourneyActionMapsAux pages fuel (pageNum + 1) pg.pageCount acc2
          (r.1, pageNum :: r.2)

/-- `getAllJourneyActionMaps(ctx, clientConfig)`, starting at page 1
with `pageCount = 1` and an empty `ResourceIDMetaMap`. -/
def getAllJourneyActionMaps (fuel : Nat)
    (pages : Nat → Except String EntityPage) : ListOutcome × List Nat :=
  getAllJourneyActionMapsAux pages fuel 1 1 []

/-- The sizes of the batch bodies in a queue call trace. -/
def batchSizes (calls : List QueueCall) : List Nat :=
  calls.filterMap (fun c =>
    match c with
    | QueueCall.postMembers ids _ => some ids.length
    | _ => none)

/-! ## Retry engine lemmas (shared) -/

/-- An operation that succeeds on its very first attempt makes the retry
loop return success at once, for every deadline. -/
theorem withRetries_first_none (deadline : Nat) (op : Nat → Option RetryError)
    (h : op 0 = none) : withRetries deadline op = none := by
  cases deadline <;> simp [withRetries, withRetriesAux, h]

/-- An operation that always reports the same retryable failure drives
the retry loop to return exactly that failure as the terminal error,
only once the deadline's fuel is exhausted. -/
theorem withRetriesAux_all_retryable (op : Nat → Option RetryError)
    (m : String) (h : ∀ t, op t = some (RetryError.retryable m)) :
    ∀ fuel t, withRetriesAux op fuel t = some m := by
  intro fuel
  induction fuel with
  | zero => intro t; simp [withRetriesAux, h t]
  | succ f ih => intro t; simp [withRetriesAux, h t]; exact ih (t + 1)

/-- If the first `k` attempts are retryable failures and attempt `k`
succeeds within the deadline, the retry loop returns success. -/
theorem withRetriesAux_succeeds (op : Nat → Option RetryError) :
    ∀ (k fuel t : Nat),
      (∀ i, i < k → ∃ m, op (t + i) = some (RetryError.retryable m)) →
      op (t + k) = none → k ≤ fuel →
      withRetriesAux op fuel t = none := by
  intro k
  induction k with
  | zero =>
    intro fuel t _ hk _
    simp only [Nat.add_zero] at hk
    cases fuel <;> simp [withRetriesAux, hk]
  | succ k ih =>
    intro fuel t hlt hk hfuel
    obtain ⟨m, hm⟩ := hlt 0 (Nat.succ_pos k)
    obtain ⟨f, rfl⟩ : ∃ f, fuel = f + 1 :=
      ⟨fuel - 1, by omega⟩
    have h0 : op t = some (RetryError.retryable m) := by simpa using hm
    simp only [withRetriesAux, h0]
    exact ih f (t + 1)
      (fun i hi => by
        have := hlt (i + 1) (by omega)
        simpa [Nat.add_assoc, Nat.add_comm 1 i] using this)
      (by
        have : t + 1 + k = t + (k + 1) := by omega
        rw [this]; exact hk)
      (by omega)

/-- Stateful variant of `withRetries_first_none`: a first attempt that
finishes with `none` ends the read loop with its state. -/
theorem withRetriesForRead_first_done {σ : Type} (deadline : Nat)
    (op : Nat → σ → σ × Option RetryError) (s s2 : σ)
    (h : op 0 s = (s2, none)) : withRetriesForRead deadline op s = (s2, none) := by
  cases deadline <;> simp [withRetriesForRead, withRetriesForReadAux, h]

/-- Stateful variant of `withRetriesAux_succeeds`, for operations whose
retryable attempts leave the state unchanged. -/
theorem withRetriesForReadAux_succeeds {σ : Type}
    (op : Nat → σ → σ × Option RetryError) :
    ∀ (k fuel t : Nat) (s s2 : σ),
      (∀ i, i < k → ∃ m, op (t + i) s = (s, some (RetryError.retryable m))) →
      op (t + k) s = (s2, none) → k ≤ fuel →
      withRetriesForReadAux op fuel t s = (s2, none) := by
  intro k
  induction k with
  | zero =>
    intro fuel t s s2 _ hk _
    simp only [Nat.add_zero] at hk
    cases fuel <;> simp [withRetriesForReadAux, hk]
  | succ k ih =>
    intro fuel t s s2 hlt hk hfuel
    obtain ⟨m, hm⟩ := hlt 0 (Nat.succ_pos k)
    obtain ⟨f, rfl⟩ : ∃ f, fuel = f + 1 := ⟨fuel - 1, by omega⟩
    have h0 : op t s = (s, some (RetryError.retryable m)) := by simpa using hm
    simp only [withRetriesForReadAux, h0]
    exact ih f (t + 1) s s2
      (fun i hi => by
        have := hlt (i + 1) (by omega)
        simpa [Nat.add_assoc, Nat.add_comm 1 i] using this)
      (by
        have : t + 1 + k = t + (k + 1) := by omega
        rw [this]; exact hk)
      (by omega)

/-- Stateful variant of `withRetriesAux_all_retryable`; the retryable
message may depend on the (unchanged) state. -/
theorem withRetriesForReadAux_all_retryable {σ : Type}
    (op : Nat → σ → σ × Option RetryError) (m : σ → String)
    (h : ∀ t s, op t s = (s, some (RetryError.retryable (m s)))) :
    ∀ fuel t s, withRetriesForReadAux op fuel t s = (s, some (m s)) := by
  intro fuel
  induction fuel with
  | zero => intro t s; simp [withRetriesForReadAux, h t s]
  | succ f ih => intro t s; simp [withRetriesForReadAux, h t s]; exact ih (t + 1) s

/-- A closure attempt that succeeds ends `retryWhen` at once with the
calls of that attempt, whatever fuel remains. -/
theorem retryWhenAux_success (op : Nat → Option AmErr × List AmCall) (n : Nat)
    (cs : List AmCall) (h : op n = (none, cs)) :
    ∀ fuel, retryWhenAux op fuel n = (none, cs) := by
  intro fuel; cases fuel <;> simp [retryWhenAux, h]

/-- A closure attempt failing with a version mismatch, while fuel
remains, prepends its calls and hands over to the next attempt. -/
theorem retryWhenAux_mismatch_step (op : Nat → Option AmErr × List AmCall)
    (n fuel : Nat) (e : AmErr) (cs : List AmCall)
    (h : op n = (some e, cs)) (hm : isVersionMismatch e = true) :
    retryWhenAux op (fuel + 1) n =
      ((retryWhenAux op fuel (n + 1)).1, cs ++ (retryWhenAux op fuel (n + 1)).2) := by
  simp [retryWhenAux, h, hm]

/-! ## Claim theorems -/

set_option maxRecDepth 10000

/-- C10: when the `members` attribute is not set in the configuration,
`updateQueueMembers` returns nil diagnostics at once and issues no
remote call of any kind — no member listing, no batch addition or
removal, no ring-number patch — leaving remote membership untouched. -/
theorem C10_members_unset_noop (queueID : String) (api : RoutingApiBehavior) :
    updateQueueMembers queueID none api = (none, []) := rfl

/-- C10 witness: a concrete run with an API that would fail every call
still returns success and issues nothing when `members` is unset. -/
theorem C10_members_unset_noop_witness :
    updateQueueMembers "q1" none
      { getMembers := Except.error "boom",
        postMembersErr := fun _ _ => some "boom",
        patchRingNumErr := fun _ _ => some "boom" } = (none, []) :=
  C10_members_unset_noop "q1" _

/-- C1: membership reconciliation is not the claimed set difference at
the level of what is submitted.  With remote (old) members `[A, B]` and
configured (new) members `[C]`, the code correctly computes
`sliceDifference [A, B] [C] = [A, B]` and orders the removal batch
before the addition batch, but the removal batch it actually submits
carries the body `[B, B]`: every chunk entity stores a pointer to the
single range-loop variable, so the serialized body repeats the chunk's
last id, `A` is never submitted for removal, and `B` is submitted twice.
On the spec's own example (old `{A, B, C}`, new `{B, C, D}`), where both
diffs are singletons, the batches do contain exactly `{A}` and `{D}` and
`B`, `C` are never touched. -/
theorem C1_removal_batch_drops_members :
    (updateQueueMembers "q1" (some [{ id := "C", ringNumber := 1 }])
        { getMembers := Except.ok
            [{ id := "A", ringNumber := 1 }, { id := "B", ringNumber := 1 }],
          postMembersErr := fun _ _ => none,
          patchRingNumErr := fun _ _ => none } =
      (none, [QueueCall.listMembers, QueueCall.postMembers ["B", "B"] true,
              QueueCall.postMembers ["C"] false])) ∧
    sliceDifference ["A", "B"] ["C"] = ["A", "B"] ∧
    (updateQueueMembers "q1"
        (some [{ id := "B", ringNumber := 1 }, { id := "C", ringNumber := 1 },
               { id := "D", ringNumber := 1 }])
        { getMembers := Except.ok
            [{ id := "A", ringNumber := 1 }, { id := "B", ringNumber := 1 },
             { id := "C", ringNumber := 1 }],
          postMembersErr := fun _ _ => none,
          patchRingNumErr := fun _ _ => none } =
      (none, [QueueCall.listMembers, QueueCall.postMembers ["A"] true,
              QueueCall.postMembers ["D"] false])) := by
  refine ⟨by decide, by decide, by decide⟩

/-- C2: on 250 members to add, `updateMembersInChunks` does issue
exactly 3 batch calls of sizes 100, 100 and 50 — the 100-slices
themselves concatenate back to the original list — but the submitted
bodies do not: each body is the slice's last id repeated (the chunk
entities all point at the range-loop variable), so the concatenation of
the submitted chunks is not the original list. -/
theorem C2_chunk_bodies_corrupted :
    (let inp := (List.range 250).map (fun i => toString i);
     let r := updateMembersInChunks "q1" inp false
       { getMembers := Except.ok [], postMembersErr := fun _ _ => none,
         patchRingNumErr := fun _ _ => none };
     batchSizes r.2 = [100, 100, 50] ∧
     additionIds r.2 ≠ inp ∧
     (chunks100 inp).flatten = inp) := by decide

/-- C9: remote-call failures of the membership batch calls are silently
discarded.  `updateMembersInChunks` returns nil diagnostics for every
API behaviour whatsoever (the source comments out the error return with
a TODO), and in particular a failing `PostRoutingQueueMembers` call is
still issued yet produces no error. -/
theorem C9_batch_errors_discarded :
    (∀ (queueID : String) (membersToUpdate : List String) (remove : Bool)
       (api : RoutingApiBehavior),
       (updateMembersInChunks queueID membersToUpdate remove api).1 = none) ∧
    updateMembersInChunks "q1" ["u1"] false
      { getMembers := Except.ok [],
        postMembersErr := fun _ _ => some "call failed",
        patchRingNumErr := fun _ _ => none } =
      (none, [QueueCall.postMembers ["u1"] false]) :=
  ⟨fun _ _ _ _ => rfl, by decide⟩

/-- C3: the claim fails for the routing queue resource: `readQueue` is a
single unwrapped get, so a 404 arriving right after Create is surfaced
at once as an error diagnostic instead of being classified retryable and
re-attempted. -/
theorem C3_counterexample_readQueue_404_surfaced :
    readQueue { id := "q1", name := none } (GetResult.err (some 404) "not found") =
      ({ id := "q1", name := none }, some "Failed to read user q1: not found") := by
  decide

/-- C3 (amended): for the journey segment and journey action map
resources a 404 on read is classified retryable and the read is
re-attempted until a non-404 read succeeds (first two conjuncts) or the
deadline elapses with the 404 then surfacing as the terminal error
(third conjunct); the routing queue Read instead performs a single
attempt and surfaces every get error, a 404 included, immediately
(fourth conjunct). -/
theorem C3_amended_journey_404_retried
    (deadline k : Nat) (hk : k ≤ deadline)
    (d : SegmentState) (seg : Journeysegment)
    (segApi : Nat → GetResult Journeysegment)
    (hs1 : ∀ t, t < k → segApi t = GetResult.err (some 404) "not yet visible")
    (hs2 : segApi k = GetResult.ok seg) (hs3 : seg.isActive = some true)
    (dam : ActionMapState) (am : Actionmap)
    (amApi : Nat → GetResult Actionmap)
    (ha1 : ∀ t, t < k → amApi t = GetResult.err (some 404) "not yet visible")
    (ha2 : amApi k = GetResult.ok am) :
    (readJourneySegment deadline d segApi none).2 = none ∧
    (readJourneyActionMap deadline dam amApi none).2 = none ∧
    (∀ (msg : String),
      (readJourneySegment deadline d (fun _ => GetResult.err (some 404) msg) none).2 =
        some ("failed to read journey segment " ++ d.id ++ ": " ++ msg)) ∧
    (∀ (q : QueueState) (status : Option Nat) (msg : String),
      (readQueue q (GetResult.err status msg)).2 =
        some ("Failed to read user " ++ q.id ++ ": " ++ msg)) := by
  refine ⟨?_, ?_, ?_, ?_⟩
  · have h := withRetriesForReadAux_succeeds
      (fun t s => readJourneySegmentStep s (segApi t) none) k deadline 0 d
      ({ d with displayName := some seg.displayName })
      (fun i hi =>
        ⟨"failed to read journey segment " ++ d.id ++ ": " ++ "not yet visible", by
          simp only [Nat.zero_add]
          simp [readJourneySegmentStep, hs1 i hi, isStatus404]⟩)
      (by
        simp only [Nat.zero_add]
        simp [readJourneySegmentStep, hs2, hs3])
      hk
    simp [readJourneySegment, withRetriesForRead, h]
  · have h := withRetriesForReadAux_succeeds
      (fun t s => readJourneyActionMapStep s (amApi t) none) k deadline 0 dam
      ({ dam with isActiveAttr := some am.isActive,
                  displayName := some am.displayName })
      (fun i hi =>
        ⟨"failed to read journey action map " ++ dam.id ++ ": " ++ "not yet visible", by
          simp only [Nat.zero_add]
          simp [readJourneyActionMapStep, ha1 i hi, isStatus404]⟩)
      (by
        simp only [Nat.zero_add]
        simp [readJourneyActionMapStep, ha2])
      hk
    simp [readJourneyActionMap, withRetriesForRead, h]
  · intro msg
    have h := withRetriesForReadAux_all_retryable
      (fun t s => readJourneySegmentStep s (GetResult.err (some 404) msg) none)
      (fun s => "failed to read journey segment " ++ s.id ++ ": " ++ msg)
      (fun t s => by simp [readJourneySegmentStep, isStatus404])
      deadline 0 d
    simp [readJourneySegment, withRetriesForRead, h]
  · intro q status msg
    simp [readQueue]

/-- C3 witness: one 404 attempt followed by a successful read, with a
two-tick deadline, for both journey resources. -/
theorem C3_amended_journey_404_retried_witness :
    (readJourneySegment 2 { id := "s1", displayName := none }
        (fun t => match t with
          | 0 => GetResult.err (some 404) "not yet visible"
          | _ + 1 => GetResult.ok { isActive := some true, displayName := "dn", version := 1 })
        none).2 = none ∧
    (readJourneyActionMap 2 { id := "a1", isActiveAttr := none, displayName := none }
        (fun t => match t with
          | 0 => GetResult.err (some 404) "not yet visible"
          | _ + 1 => GetResult.ok { isActive := true, displayName := "adn", version := 1 })
        none).2 = none ∧
    (∀ (msg : String),
      (readJourneySegment 2 { id := "s1", displayName := none }
          (fun _ => GetResult.err (some 404) msg) none).2 =
        some ("failed to read journey segment " ++
          (SegmentState.mk "s1" none).id ++ ": " ++ msg)) ∧
    (∀ (q : QueueState) (status : Option Nat) (msg : String),
      (readQueue q (GetResult.err status msg)).2 =
        some ("Failed to read user " ++ q.id ++ ": " ++ msg)) :=
  C3_amended_journey_404_retried 2 1 (by omega)
    { id := "s1", displayName := none }
    { isActive := some true, displayName := "dn", version := 1 }
    _
    (fun t ht => by
      match t, ht with
      | 0, _ => rfl
      | n + 1, h => exact absurd h (by omega))
    rfl rfl
    { id := "a1", isActiveAttr := none, displayName := none }
    { isActive := true, displayName := "adn", version := 1 }
    _
    (fun t ht => by
      match t, ht with
      | 0, _ => rfl
      | n + 1, h => exact absurd h (by omega))
    rfl

/-- C4: for all three resource types, once Delete has been issued
successfully, a poll read answered with HTTP 404 is interpreted as the
object being gone and the whole Delete operation completes without
error. -/
theorem C4_404_after_delete_is_success
    (qid qname sid sname aid aname : String) (deadline : Nat)
    (mq ms ma : String)
    (qapi : Nat → GetResult Queue) (hq : qapi 0 = GetResult.err (some 404) mq)
    (sapi : Nat → GetResult Journeysegment)
    (hs : sapi 0 = GetResult.err (some 404) ms)
    (aapi : Nat → GetResult Actionmap)
    (ha : aapi 0 = GetResult.err (some 404) ma) :
    deleteQueue qid qname none deadline qapi = none ∧
    deleteJourneySegment sid sname none sapi = none ∧
    deleteJourneyActionMap aid aname none aapi = none := by
  refine ⟨?_, ?_, ?_⟩
  · show withRetries deadline (fun t => deleteQueueStep qid (qapi t)) = none
    exact withRetries_first_none _ _ (by simp [deleteQueueStep, hq])
  · show withRetries 30 (fun t => deleteJourneySegmentStep sid (sapi t)) = none
    exact withRetries_first_none _ _
      (by simp [deleteJourneySegmentStep, hs, isStatus404])
  · show withRetries 30 (fun t => deleteJourneyActionMapStep aid (aapi t)) = none
    exact withRetries_first_none _ _
      (by simp [deleteJourneyActionMapStep, ha, isStatus404])

/-- C4 witness: concrete delete-then-404 runs for the three resources. -/
theorem C4_404_after_delete_is_success_witness :
    deleteQueue "q1" "qn" none 5 (fun _ => GetResult.err (some 404) "gone") = none ∧
    deleteJourneySegment "s1" "sn" none (fun _ => GetResult.err (some 404) "gone") = none ∧
    deleteJourneyActionMap "a1" "an" none (fun _ => GetResult.err (some 404) "gone") = none :=
  C4_404_after_delete_is_success "q1" "qn" "s1" "sn" "a1" "an" 5
    "gone" "gone" "gone" _ rfl _ rfl _ rfl

/-- C5: the delete poll keeps re-reading until the object is gone (404)
or, for journey segments, reported inactive.  Conjunct 1: when the
object stays present and active at every tick, the journey segment
delete returns its terminal "still exists" error only after exhausting
the full 30-tick (30-second) deadline baked into the source.  Conjunct
2: if the object disappears at any tick `k ≤ 30`, the delete succeeds —
the poll never fails earlier on a shorter still-exists sequence.
Conjunct 3: an inactive payload also completes the journey segment
delete.  Conjuncts 4 and 5: the same deadline behaviour for the queue
delete with its configured timeout. -/
theorem C5_delete_poll_deadline
    (sid sname : String) (seg : Journeysegment) (hA : seg.isActive = some true)
    (api1 : Nat → GetResult Journeysegment) (h1 : ∀ t, api1 t = GetResult.ok seg)
    (k : Nat) (hk : k ≤ 30)
    (api2 : Nat → GetResult Journeysegment)
    (h2 : ∀ t, t < k → api2 t = GetResult.ok seg)
    (h2k : api2 k = GetResult.err (some 404) "nf")
    (qid qname : String) (deadline : Nat) (q : Queue)
    (qapi1 : Nat → GetResult Queue) (hq1 : ∀ t, qapi1 t = GetResult.ok q)
    (j : Nat) (hj : j ≤ deadline)
    (qapi2 : Nat → GetResult Queue)
    (hq2 : ∀ t, t < j → qapi2 t = GetResult.ok q)
    (hq2j : qapi2 j = GetResult.err (some 404) "nf") :
    deleteJourneySegment sid sname none api1 =
      some ("journey segment " ++ sid ++ " still exists") ∧
    deleteJourneySegment sid sname none api2 = none ∧
    (∀ (api3 : Nat → GetResult Journeysegment) (seg2 : Journeysegment),
      seg2.isActive = some false → api3 0 = GetResult.ok seg2 →
      deleteJourneySegment sid sname none api3 = none) ∧
    deleteQueue qid qname none deadline qapi1 =
      some ("Queue " ++ qid ++ " still exists") ∧
    deleteQueue qid qname none deadline qapi2 = none := by
  refine ⟨?_, ?_, ?_, ?_, ?_⟩
  · show withRetries 30 (fun t => deleteJourneySegmentStep sid (api1 t)) =
      some ("journey segment " ++ sid ++ " still exists")
    exact withRetriesAux_all_retryable _ _
      (fun t => by simp [deleteJourneySegmentStep, h1 t, hA]) 30 0
  · show withRetries 30 (fun t => deleteJourneySegmentStep sid (api2 t)) = none
    exact withRetriesAux_succeeds _ k 30 0
      (fun i hi =>
        ⟨"journey segment " ++ sid ++ " still exists", by
          simp only [Nat.zero_add]
          simp [deleteJourneySegmentStep, h2 i hi, hA]⟩)
      (by
        simp only [Nat.zero_add]
        simp [deleteJourneySegmentStep, h2k, isStatus404])
      hk
  · intro api3 seg2 hinact h0
    show withRetries 30 (fun t => deleteJourneySegmentStep sid (api3 t)) = none
    exact withRetries_first_none _ _
      (by simp [deleteJourneySegmentStep, h0, hinact])
  · show withRetries deadline (fun t => deleteQueueStep qid (qapi1 t)) =
      some ("Queue " ++ qid ++ " still exists")
    exact withRetriesAux_all_retryable _ _
      (fun t => by simp [deleteQueueStep, hq1 t]) deadline 0
  · show withRetries deadline (fun t => deleteQueueStep qid (qapi2 t)) = none
    exact withRetriesAux_succeeds _ j deadline 0
      (fun i hi =>
        ⟨"Queue " ++ qid ++ " still exists", by
          simp only [Nat.zero_add]
          simp [deleteQueueStep, hq2 i hi]⟩)
      (by
        simp only [Nat.zero_add]
        simp [deleteQueueStep, hq2j])
      hj

/-- C5 witness: a permanently-present segment and queue versus ones that
disappear on the first poll. -/
theorem C5_delete_poll_deadline_witness :
    deleteJourneySegment "s1" "sn" none
      (fun _ => GetResult.ok { isActive := some true, displayName := "dn", version := 1 }) =
      some ("journey segment " ++ "s1" ++ " still exists") ∧
    deleteJourneySegment "s1" "sn" none (fun _ => GetResult.err (some 404) "nf") = none ∧
    (∀ (api3 : Nat → GetResult Journeysegment) (seg2 : Journeysegment),
      seg2.isActive = some false → api3 0 = GetResult.ok seg2 →
      deleteJourneySegment "s1" "sn" none api3 = none) ∧
    deleteQueue "q1" "qn" none 7 (fun _ => GetResult.ok { name := "qn" }) =
      some ("Queue " ++ "q1" ++ " still exists") ∧
    deleteQueue "q1" "qn" none 7 (fun _ => GetResult.err (some 404) "nf") = none :=
  C5_delete_poll_deadline "s1" "sn"
    { isActive := some true, displayName := "dn", version := 1 } rfl
    _ (fun _ => rfl)
    0 (by omega)
    _ (fun t ht => absurd ht (Nat.not_lt_zero t))
    rfl
    "q1" "qn" 7 { name := "qn" }
    _ (fun _ => rfl)
    0 (by omega)
    _ (fun t ht => absurd ht (Nat.not_lt_zero t))
    rfl

/-- C6: the claim fails for the journey segment, whose API does expose
optimistic-concurrency versioning: `updateJourneySegment` issues exactly
one patch carrying the version stored in local state (here 5), performs
no preliminary read of the current remote version, and surfaces a
version-conflict error as a failure instead of re-reading and
re-patching. -/
theorem C6_counterexample_segment_update_no_version_retry :
    updateJourneySegment "segName" 5
      (some "segment version does not match the current version") =
      (some ("Error updating journey segment segName: " ++
        "segment version does not match the current version"),
       [SegmentUpdateCall.patchSegment 5]) := by decide

/-- C6 (amended): the journey action map Update reads the current remote
version, applies the patch stamped with exactly that version, and on a
version-conflict error re-reads the latest version and re-patches
(bounded by the retry engine) instead of failing — the trace shows each
patch preceded by its own get and carrying that get's version; the
journey segment Update instead patches directly with the locally stored
version and propagates any patch error. -/
theorem C6_amended_action_map_version_retry
    (id : String) (maxRetries : Nat) (hmax : 1 ≤ maxRetries)
    (api : AmUpdateApi) (am0 am1 : Actionmap)
    (hg0 : api.get 0 = GetResult.ok am0)
    (hg1 : api.get 1 = GetResult.ok am1)
    (hp0 : api.patch 0 am0.version = some (AmErr.versionMismatch "conflict"))
    (hp1 : api.patch 1 am1.version = none) :
    updateJourneyActionMap id maxRetries api =
      (none, [AmCall.getActionMap, AmCall.patchActionMap am0.version,
              AmCall.getActionMap, AmCall.patchActionMap am1.version]) ∧
    (∀ (dn : String) (v : Int) (e : String),
      updateJourneySegment dn v (some e) =
        (some ("Error updating journey segment " ++ dn ++ ": " ++ e),
         [SegmentUpdateCall.patchSegment v])) := by
  constructor
  · obtain ⟨f, rfl⟩ : ∃ f, maxRetries = f + 1 := ⟨maxRetries - 1, by omega⟩
    have hop0 : updateJourneyActionMapAttempt id api 0 =
        (some (AmErr.versionMismatch "conflict"),
         [AmCall.getActionMap, AmCall.patchActionMap am0.version]) := by
      simp [updateJourneyActionMapAttempt, hg0, hp0]
    have hop1 : updateJourneyActionMapAttempt id api 1 =
        (none, [AmCall.getActionMap, AmCall.patchActionMap am1.version]) := by
      simp [updateJourneyActionMapAttempt, hg1, hp1]
    show retryWhen (f + 1) (updateJourneyActionMapAttempt id api) = _
    unfold retryWhen
    rw [retryWhenAux_mismatch_step _ 0 f _ _ hop0 rfl,
        retryWhenAux_success _ 1 _ hop1 f]
    rfl
  · intro dn v e; rfl

/-- C6 witness: a conflicting first patch at version 3 followed by a
successful second patch at the re-read version 4. -/
theorem C6_amended_action_map_version_retry_witness :
    updateJourneyActionMap "am1" 2
      { get := fun n => match n with
          | 0 => GetResult.ok { isActive := true, displayName := "dn", version := 3 }
          | _ + 1 => GetResult.ok { isActive := true, displayName := "dn", version := 4 },
        patch := fun n _ => match n with
          | 0 => some (AmErr.versionMismatch "conflict")
          | _ + 1 => none } =
      (none, [AmCall.getActionMap, AmCall.patchActionMap 3,
              AmCall.getActionMap, AmCall.patchActionMap 4]) ∧
    (∀ (dn : String) (v : Int) (e : String),
      updateJourneySegment dn v (some e) =
        (some ("Error updating journey segment " ++ dn ++ ": " ++ e),
         [SegmentUpdateCall.patchSegment v])) :=
  C6_amended_action_map_version_retry "am1" 2 (by omega) _
    { isActive := true, displayName := "dn", version := 3 }
    { isActive := true, displayName := "dn", version := 4 }
    rfl rfl rfl rfl

/-- The entities of page `n` (the empty list for an error page; used
only on pages known to be successful). -/
def pageEntities (pages : Nat → Except String EntityPage) (n : Nat) :
    List (String × String) :=
  match pages n with
  | Except.ok pg => pg.entities.getD []
  | Except.error _ => []

/-- Folding one page's entities into the accumulated
`ResourceIDMetaMap`. -/
def insertEntities (acc : List (String × String))
    (es : List (String × String)) : List (String × String) :=
  es.foldl (fun m e => mapInsert m e.1 e.2) acc

/-- Running the journey segment page loop over `k` consecutive non-empty
pages followed by an empty one collects exactly the pages' entities (as
an id-keyed upsert map) and requests exactly pages
`start, …, start + k`. -/
theorem getAllJourneySegmentsAux_run (pages : Nat → Except String EntityPage) :
    ∀ (k fuel start : Nat) (acc : List (String × String)),
      (∀ i, i < k → ∃ es, es ≠ [] ∧ ∃ pc,
        pages (start + i) = Except.ok ⟨some es, pc⟩) →
      (∃ pg, pages (start + k) = Except.ok pg ∧
        (pg.entities = none ∨ pg.entities = some [])) →
      k < fuel →
      getAllJourneySegmentsAux pages fuel start acc =
        (ListOutcome.ok ((List.range' start k).foldl
          (fun a n => insertEntities a (pageEntities pages n)) acc),
         List.range' start (k + 1)) := by
  intro k
  induction k with
  | zero =>
    intro fuel start acc _ hend hfuel
    obtain ⟨pg, hpg, hempty⟩ := hend
    simp only [Nat.add_zero] at hpg
    obtain ⟨f, rfl⟩ : ∃ f, fuel = f + 1 := ⟨fuel - 1, by omega⟩
    rcases hempty with h | h <;>
      simp [getAllJourneySegmentsAux, hpg, h, List.range']
  | succ k ih =>
    intro fuel start acc hne hend hfuel
    obtain ⟨es, hes, pc, hpg⟩ := hne 0 (Nat.succ_pos k)
    simp only [Nat.add_zero] at hpg
    obtain ⟨f, rfl⟩ : ∃ f, fuel = f + 1 := ⟨fuel - 1, by omega⟩
    obtain ⟨e, tl, rfl⟩ : ∃ e tl, es = e :: tl := by
      cases es with
      | nil => exact absurd rfl hes
      | cons e tl => exact ⟨e, tl, rfl⟩
    have hrec := ih f (start + 1)
      (List.foldl (fun m p => mapInsert m p.1 p.2) (mapInsert acc e.1 e.2) tl)
      (fun i hi => by
        have := hne (i + 1) (by omega)
        simpa [Nat.add_assoc, Nat.add_comm 1 i] using this)
      (by
        obtain ⟨pg, hp, he⟩ := hend
        exact ⟨pg, by simpa [Nat.add_assoc, Nat.add_comm 1 k] using hp, he⟩)
      (by omega)
    have hpe : pageEntities pages start = e :: tl := by
      simp [pageEntities, hpg]
    simp only [getAllJourneySegmentsAux, hpg]
    rw [List.range'_succ start k 1, List.range'_succ start (k + 1) 1]
    simp only [List.foldl_cons, hpe, insertEntities]
    rw [hrec]
    rfl

/-- Running the journey action map page loop under the same conditions,
provided each non-empty page reports a page count that lets the loop
proceed to the next page. -/
theorem getAllJourneyActionMapsAux_run (pages : Nat → Except String EntityPage) :
    ∀ (k fuel start pageCount : Nat) (acc : List (String × String)),
      (∀ i, i < k → ∃ es, es ≠ [] ∧ ∃ pc,
        pages (start + i) = Except.ok ⟨some es, pc⟩ ∧ start + i + 1 ≤ pc) →
      (∃ pg, pages (start + k) = Except.ok pg ∧
        (pg.entities = none ∨ pg.entities = some [])) →
      k < fuel → start ≤ pageCount →
      getAllJourneyActionMapsAux pages fuel start pageCount acc =
        (ListOutcome.ok ((List.range' start k).foldl
          (fun a n => insertEntities a (pageEntities pages n)) acc),
         List.range' start (k + 1)) := by
  intro k
  induction k with
  | zero =>
    intro fuel start pageCount acc _ hend hfuel hle
    obtain ⟨pg, hpg, hempty⟩ := hend
    simp only [Nat.add_zero] at hpg
    obtain ⟨f, rfl⟩ : ∃ f, fuel = f + 1 := ⟨fuel - 1, by omega⟩
    have hnotgt : ¬ start > pageCount := by omega
    rcases hempty with h | h <;>
      simp [getAllJourneyActionMapsAux, hnotgt, hpg, h, List.range']
  | succ k ih =>
    intro fuel start pageCount acc hne hend hfuel hle
    obtain ⟨es, hes, pc, hpg, hpc⟩ := hne 0 (Nat.succ_pos k)
    simp only [Nat.add_zero] at hpg hpc
    obtain ⟨f, rfl⟩ : ∃ f, fuel = f + 1 := ⟨fuel - 1, by omega⟩
    obtain ⟨e, tl, rfl⟩ : ∃ e tl, es = e :: tl := by
      cases es with
      | nil => exact absurd rfl hes
      | cons e tl => exact ⟨e, tl, rfl⟩
    have hnotgt : ¬ start > pageCount := by omega
    have hrec := ih f (start + 1) pc
      (List.foldl (fun m p => mapInsert m p.1 p.2) (mapInsert acc e.1 e.2) tl)
      (fun i hi => by
        have := hne (i + 1) (by omega)
        simpa [Nat.add_assoc, Nat.add_comm 1 i] using this)
      (by
        obtain ⟨pg, hp, he⟩ := hend
        exact ⟨pg, by simpa [Nat.add_assoc, Nat.add_comm 1 k] using hp, he⟩)
      (by omega) hpc
    have hpe : pageEntities pages start = e :: tl := by
      simp [pageEntities, hpg]
    simp only [getAllJourneyActionMapsAux, hnotgt, if_false, hpg]
    rw [List.range'_succ start k 1, List.range'_succ start (k + 1) 1]
    simp only [List.foldl_cons, hpe, insertEntities]
    rw [hrec]
    rfl

/-- When every reported page count is at most `C` (with `C ≥ 1` so that
the initial page-1 probe is within bounds), the action map page loop
never requests a page number above `C`. -/
theorem getAllJourneyActionMapsAux_requests_le
    (pages : Nat → Except String EntityPage) (C : Nat)
    (hC : ∀ n pg, pages n = Except.ok pg → pg.pageCount ≤ C) :
    ∀ (fuel start pageCount : Nat) (acc : List (String × String)),
      pageCount ≤ C →
      ∀ p, p ∈ (getAllJourneyActionMapsAux pages fuel start pageCount acc).2 →
        p ≤ C := by
  intro fuel
  induction fuel with
  | zero =>
    intro start pageCount acc _ p hp
    simp [getAllJourneyActionMapsAux] at hp
  | succ f ih =>
    intro start pageCount acc hpc p hp
    by_cases hgt : start > pageCount
    · simp [getAllJourneyActionMapsAux, hgt] at hp
    · rcases hpg : pages start with e | pg
      · simp [getAllJourneyActionMapsAux, hgt, hpg] at hp
        omega
      · rcases hent : pg.entities with _ | es
        · simp [getAllJourneyActionMapsAux, hgt, hpg, hent] at hp
          omega
        · cases es with
          | nil =>
            simp [getAllJourneyActionMapsAux, hgt, hpg, hent] at hp
            omega
          | cons e tl =>
            simp only [getAllJourneyActionMapsAux, hgt, if_false, hpg, hent,
              List.mem_cons] at hp
            rcases hp with rfl | hp
            · omega
            · exact ih (start + 1) pg.pageCount _ (hC start pg hpg) p hp

/-- C7: the page-count clause of the claim fails for the journey segment
lister.  On a backend whose every page reports an authoritative total
page count of 1 while pages 1 and 2 are non-empty,
`getAllJourneySegments` requests pages 2 and 3 — both greater than the
reported count (it never consults `PageCount`) — whereas
`getAllJourneyActionMaps` honors the count and requests page 1 only. -/
theorem C7_counterexample_segments_ignore_page_count :
    (let pgs : Nat → Except String EntityPage := fun n =>
       if n = 1 then Except.ok ⟨some [("s1", "n1")], 1⟩
       else if n = 2 then Except.ok ⟨some [("s2", "n2")], 1⟩
       else Except.ok ⟨some [], 1⟩;
     getAllJourneySegments 10 pgs =
       (ListOutcome.ok [("s1", "n1"), ("s2", "n2")], [1, 2, 3]) ∧
     getAllJourneyActionMaps 10 pgs = (ListOutcome.ok [("s1", "n1")], [1]) ∧
     2 ∈ (getAllJourneySegments 10 pgs).2) := by decide

/-- C7 (amended): both listers start at page 1, stop at the first page
with a nil/empty entity slice, and yield exactly the id-keyed union of
the entities of the non-empty pages they requested (conjuncts 1 and 2;
for the action map lister provided the reported page counts allow each
next page); the journey action map lister additionally never requests a
page number greater than the backend's reported page count bound
(conjunct 3), while the journey segment lister relies on the empty-page
check alone and may request pages beyond the reported count. -/
theorem C7_amended_pagination
    (pages : Nat → Except String EntityPage) (k fuel : Nat) (hfuel : k < fuel)
    (hne : ∀ i, i < k → ∃ es, es ≠ [] ∧ ∃ pc,
      pages (1 + i) = Except.ok ⟨some es, pc⟩ ∧ 1 + i + 1 ≤ pc)
    (hend : ∃ pg, pages (1 + k) = Except.ok pg ∧
      (pg.entities = none ∨ pg.entities = some [])) :
    getAllJourneySegments fuel pages =
      (ListOutcome.ok ((List.range' 1 k).foldl
        (fun a n => insertEntities a (pageEntities pages n)) []),
       List.range' 1 (k + 1)) ∧
    getAllJourneyActionMaps fuel pages =
      (ListOutcome.ok ((List.range' 1 k).foldl
        (fun a n => insertEntities a (pageEntities pages n)) []),
       List.range' 1 (k + 1)) ∧
    (∀ (pages2 : Nat → Except String EntityPage) (C fuel2 : Nat),
      (∀ n pg, pages2 n = Except.ok pg → pg.pageCount ≤ C) → 1 ≤ C →
      ∀ p, p ∈ (getAllJourneyActionMaps fuel2 pages2).2 → p ≤ C) := by
  refine ⟨?_, ?_, ?_⟩
  · exact getAllJourneySegmentsAux_run pages k fuel 1 []
      (fun i hi => by
        obtain ⟨es, hes, pc, hp, _⟩ := hne i hi
        exact ⟨es, hes, pc, hp⟩)
      hend hfuel
  · exact getAllJourneyActionMapsAux_run pages k fuel 1 1 [] hne hend hfuel
      (Nat.le_refl 1)
  · intro pages2 C fuel2 hC hC1 p hp
    exact getAllJourneyActionMapsAux_requests_le pages2 C hC fuel2 1 1 [] hC1 p hp

/-- C7 witness: two non-empty pages of two entities each, then an empty
third page, all reporting a page count of 3. -/
theorem C7_amended_pagination_witness :
    (let pgs : Nat → Except String EntityPage := fun n =>
       match n with
       | 1 => Except.ok ⟨some [("a", "x"), ("b", "x")], 3⟩
       | 2 => Except.ok ⟨some [("c", "x"), ("d", "x")], 3⟩
       | _ => Except.ok ⟨some [], 3⟩;
     getAllJourneySegments 10 pgs =
       (ListOutcome.ok [("a", "x"), ("b", "x"), ("c", "x"), ("d", "x")],
        [1, 2, 3]) ∧
     getAllJourneyActionMaps 10 pgs =
       (ListOutcome.ok [("a", "x"), ("b", "x"), ("c", "x"), ("d", "x")],
        [1, 2, 3])) := by
  have h := C7_amended_pagination
    (fun n =>
      match n with
      | 1 => Except.ok ⟨some [("a", "x"), ("b", "x")], 3⟩
      | 2 => Except.ok ⟨some [("c", "x"), ("d", "x")], 3⟩
      | _ => Except.ok ⟨some [], 3⟩)
    2 10 (by omega)
    (fun i hi => by
      match i, hi with
      | 0, _ => exact ⟨[("a", "x"), ("b", "x")], by decide, 3, rfl, by omega⟩
      | 1, _ => exact ⟨[("c", "x"), ("d", "x")], by decide, 3, rfl, by omega⟩
      | n + 2, h => exact absurd h (by omega))
    ⟨⟨some [], 3⟩, rfl, Or.inr rfl⟩
  exact ⟨h.1.trans (by decide), h.2.1.trans (by decide)⟩

/-- C8: the claim fails for the journey action map.  When its Read gets
a payload whose inactive state flag is set (`is_active = false`), the
controller does not clear the local identifier: `flattenActionMap`
stores the flag as an ordinary attribute, the identifier stays `"am1"`
(instead of the claimed `""`), and the read finishes with the
consistency checker's verdict. -/
theorem C8_counterexample_action_map_keeps_id :
    readJourneyActionMap 5 { id := "am1", isActiveAttr := none, displayName := none }
      (fun _ => GetResult.ok { isActive := false, displayName := "dn", version := 1 })
      none =
      ({ id := "am1", isActiveAttr := some false, displayName := some "dn" },
       none) := by decide

/-- C8 (amended): a journey segment Read that finds the segment
inactive clears the local identifier (`d.SetId("")`) and returns success
immediately, bypassing even the consistency check, whatever its verdict
would have been; the journey action map Read leaves the identifier
untouched on an inactive payload and returns the consistency verdict. -/
theorem C8_amended_segment_clears_id
    (deadline : Nat) (d : SegmentState) (seg : Journeysegment)
    (api : Nat → GetResult Journeysegment) (cc : Option RetryError)
    (h0 : api 0 = GetResult.ok seg) (hinact : seg.isActive = some false) :
    readJourneySegment deadline d api cc = ({ d with id := "" }, none) ∧
    (∀ (dam : ActionMapState) (am : Actionmap) (ccv : Option RetryError),
      am.isActive = false →
      (readJourneyActionMapStep dam (GetResult.ok am) ccv).1.id = dam.id ∧
      (readJourneyActionMapStep dam (GetResult.ok am) ccv).2 = ccv) := by
  constructor
  · show withRetriesForRead deadline
      (fun t s => readJourneySegmentStep s (api t) cc) d = ({ d with id := "" }, none)
    exact withRetriesForRead_first_done deadline _ d ({ d with id := "" })
      (by simp [readJourneySegmentStep, h0, hinact])
  · intro dam am ccv _
    exact ⟨rfl, rfl⟩

/-- C8 witness: an inactive segment payload, read with a non-trivial
consistency verdict pending, still clears the id and succeeds. -/
theorem C8_amended_segment_clears_id_witness :
    readJourneySegment 3 { id := "s1", displayName := none }
      (fun _ => GetResult.ok { isActive := some false, displayName := "dn", version := 1 })
      (some (RetryError.retryable "mismatch")) =
      ({ SegmentState.mk "s1" none with id := "" }, none) ∧
    (∀ (dam : ActionMapState) (am : Actionmap) (ccv : Option RetryError),
      am.isActive = false →
      (readJourneyActionMapStep dam (GetResult.ok am) ccv).1.id = dam.id ∧
      (readJourneyActionMapStep dam (GetResult.ok am) ccv).2 = ccv) :=
  C8_amended_segment_clears_id 3 { id := "s1", displayName := none }
    { isActive := some false, displayName := "dn", version := 1 }
    _ (some (RetryError.retryable "mismatch")) rfl rfl

end Genesys
